import Mathlib

/-!
Verification of the Imperium engine's GPU resource and frame-synchronization
layer, shallowly embedded from the Rust sources.

The embedding models:
* `src/command/mod.rs` — `FrameAggregator`, `Frame`, the acquire/submit/present
  frame path, as a state machine over slot indices that also records the
  sequence of device calls it performs (`DevEvent`);
* `src/core/mod.rs` — `Device::create`'s color-format negotiation and
  `Device::upload_type_for`'s memory-type resolution;
* `src/buffer/mod.rs` — `Buffer::fill_buffer` and the row-pitch / staging-row
  copy of `TextureBuffer::upload_texture`;
* `src/render/mod.rs` — `Surface::rebuild` / `Surface::destroy` as a device
  call trace;
* `src/app/mod.rs` / `src/spatial/pass.rs` — the per-frame surface validity /
  just-rebuilt flag protocol.

GPU objects are identified by the index of the vector slot that holds them,
and backend results (image acquisition, presentation) are supplied as oracle
inputs, since they are chosen by the backend, not by this code.
-/

namespace Imperium

/-- Outcome of `Swapchain::acquire_image`: `ok fi` when the backend returns
swapchain image index `fi`, `err` when acquisition fails. -/
inductive AcquireResult where
  | ok (imageIndex : Nat)
  | err
deriving DecidableEq, Repr

/-- Outcome of `Swapchain::present`. -/
inductive PresentResult where
  | ok
  | err
deriving DecidableEq, Repr

/-- A device-level call performed by the embedded code, with GPU objects
named by their slot index. The alphabet covers every synchronization or
lifetime-relevant call appearing in `command/mod.rs` and `render/mod.rs`. -/
inductive DevEvent where
  | acquireImage (sem : Nat)
  | acquireCommandBuffer (pool : Nat)
  | finishCommandBuffer (pool : Nat)
  | submit (waitSem : Nat) (signalSem : Nat) (fence : Nat)
  | presentImage (image : Nat) (waitSem : Nat)
  | waitForFence (fence : Nat)
  | resetFence (fence : Nat)
  | resetCommandPool (pool : Nat)
  | waitIdle
  | destroyFramebuffer
  | destroyImageView
  | destroySwapchain
  | queryCompatibility
  | createSwapchain
  | createDepthView
  | createImageView
  | createFramebuffer
  | computeViewport
deriving DecidableEq, Repr

/-- `FrameAggregator` (src/command/mod.rs): per-slot framebuffer, command
pool, fence, acquire semaphore and present semaphore vectors all have length
`slots` (the swapchain image count); `last_ref` is the round-robin cursor. -/
structure FrameAggregator where
  slots : Nat
  last_ref : Nat
deriving DecidableEq, Repr

/-- `Frame` (src/command/mod.rs): indices of the aggregator slots whose
objects the frame borrows. -/
structure Frame where
  frame_index : Nat
  framebuffer : Nat
  command_pool : Nat
  framebuffer_fence : Nat
  acquire_semaphore : Nat
  present_semaphore : Nat
deriving DecidableEq, Repr

/-- `FrameAggregator::next_acq_pre_pair_index`: reset the cursor to 0 when it
has run past the semaphore vector, return it, then advance it by one. -/
def FrameAggregator.next_acq_pre_pair_index (a : FrameAggregator) :
    Nat × FrameAggregator :=
  let lr := if a.slots ≤ a.last_ref then 0 else a.last_ref
  (lr, { a with last_ref := lr + 1 })

/-- `FrameAggregator::next_frame`: binds the framebuffer, command pool and
fence of the acquired image index, and the semaphores of the rotation index. -/
def FrameAggregator.next_frame (frame_index semaphore_index : Nat) : Frame :=
  { frame_index := frame_index
    framebuffer := frame_index
    command_pool := frame_index
    framebuffer_fence := frame_index
    acquire_semaphore := semaphore_index
    present_semaphore := semaphore_index }

/-- `FrameAggregator::acquire_next_indices`: when the semaphore vector is
non-empty, pick the rotation index, then call `acquire_image` with that
acquire semaphore; return `(image index, semaphore index)` on success and
`none` on failure.  With an empty semaphore vector, return `none` without
calling `acquire_image`. -/
def FrameAggregator.acquire_next_indices (a : FrameAggregator)
    (acq : AcquireResult) :
    Option (Nat × Nat) × FrameAggregator × List DevEvent :=
  if a.slots ≠ 0 then
    let (si, a') := a.next_acq_pre_pair_index
    match acq with
    | .ok fi => (some (fi, si), a', [.acquireImage si])
    | .err => (none, a', [.acquireImage si])
  else (none, a, [])

/-- `FrameAggregator::acquire_next`. -/
def FrameAggregator.acquire_next (a : FrameAggregator) (acq : AcquireResult) :
    Option Frame × FrameAggregator × List DevEvent :=
  match a.acquire_next_indices acq with
  | (some (fi, si), a', evs) => (some (FrameAggregator.next_frame fi si), a', evs)
  | (none, a', evs) => (none, a', evs)

/-- `Frame::begin_render` (src/command/mod.rs): acquire a command buffer from
the frame's pool, record, finish, submit waiting on the acquire semaphore and
signalling the present semaphore and the slot fence, then present waiting on
the present semaphore; returns `false` exactly when presentation fails.
No fence is waited on or reset, and no command pool is reset. -/
def Frame.begin_render (f : Frame) (present : PresentResult) :
    Bool × List DevEvent :=
  let evs := [DevEvent.acquireCommandBuffer f.command_pool,
              DevEvent.finishCommandBuffer f.command_pool,
              DevEvent.submit f.acquire_semaphore f.present_semaphore f.framebuffer_fence,
              DevEvent.presentImage f.frame_index f.present_semaphore]
  match present with
  | .err => (false, evs)
  | .ok => (true, evs)

/-- One tick of the steady-state frame loop: `acquire_next` followed (on
success) by `begin_render`, concatenating the device calls performed. -/
def frame_step (a : FrameAggregator) (acq : AcquireResult)
    (present : PresentResult) : FrameAggregator × List DevEvent :=
  match a.acquire_next acq with
  | (some f, a', evs) => (a', evs ++ (f.begin_render present).2)
  | (none, a', evs) => (a', evs)

/-- A run of consecutive frame-loop ticks with the backend's responses given
as an oracle list. -/
def run_frames (a : FrameAggregator) :
    List (AcquireResult × PresentResult) → FrameAggregator × List DevEvent
  | [] => (a, [])
  | (acq, pr) :: rest =>
    let (a', evs) := frame_step a acq pr
    let (a'', evs') := run_frames a' rest
    (a'', evs ++ evs')

/-- Is this device call one of the CPU-side synchronization / reuse-guard
calls (fence wait, fence reset, command-pool reset)? -/
def DevEvent.isSlotReuseGuard : DevEvent → Bool
  | .waitForFence _ => true
  | .resetFence _ => true
  | .resetCommandPool _ => true
  | _ => false

/-- The acquisition results of a run of consecutive `acquire_next` calls. -/
def run_acquire_frames (a : FrameAggregator) :
    List AcquireResult → List (Option Frame)
  | [] => []
  | acq :: rest =>
    match a.acquire_next acq with
    | (r, a', _) => r :: run_acquire_frames a' rest

/-- Value of the aggregator's round-robin cursor after `k` acquisition
attempts on an `n`-slot aggregator started with cursor `0`. -/
def lastRefAfter (n k : Nat) : Nat := if k = 0 then 0 else (k - 1) % n + 1

lemma succ_mod_eq (j n : Nat) (hn : 0 < n) :
    (j + 1) % n = if j % n + 1 = n then 0 else j % n + 1 := by
  rcases Nat.lt_or_ge 1 n with h2 | h1
  · have h1n : 1 % n = 1 := Nat.mod_eq_of_lt h2
    have hr : j % n < n := Nat.mod_lt _ hn
    rw [Nat.add_mod]
    rw [h1n]
    by_cases h : j % n + 1 = n
    · simp [h, Nat.mod_self]
    · have : j % n + 1 < n := by omega
      simp [h, Nat.mod_eq_of_lt this]
  · have : n = 1 := by omega
    subst this
    simp [Nat.mod_one]

lemma next_acq_pre_pair_index_formula (n k : Nat) (hn : 1 ≤ n) :
    FrameAggregator.next_acq_pre_pair_index ⟨n, lastRefAfter n k⟩ =
      (k % n, ⟨n, lastRefAfter n (k + 1)⟩) := by
  unfold FrameAggregator.next_acq_pre_pair_index lastRefAfter
  rcases k with _ | j
  · have : ¬ n ≤ 0 := by omega
    simp [this, Nat.zero_mod]
  · have hr : j % n < n := Nat.mod_lt _ (by omega)
    have hsucc := succ_mod_eq j n (by omega)
    by_cases h : j % n + 1 = n
    · have hc : n ≤ j % n + 1 := by omega
      simp only [Nat.succ_sub_one]
      simp [hc, hsucc, h]
    · have hc : ¬ n ≤ j % n + 1 := by omega
      simp only [Nat.succ_sub_one]
      simp [hc, hsucc, h]

lemma acquire_next_formula (n k : Nat) (hn : 1 ≤ n) (acq : AcquireResult) :
    FrameAggregator.acquire_next ⟨n, lastRefAfter n k⟩ acq =
      ((match acq with
        | .ok fi => some (FrameAggregator.next_frame fi (k % n))
        | .err => none),
       ⟨n, lastRefAfter n (k + 1)⟩, [.acquireImage (k % n)]) := by
  have hz : n ≠ 0 := by omega
  cases acq <;>
    simp [FrameAggregator.acquire_next, FrameAggregator.acquire_next_indices,
      hz, next_acq_pre_pair_index_formula n k hn]

lemma run_acquire_frames_formula (n : Nat) (hn : 1 ≤ n)
    (oracle : List AcquireResult) :
    ∀ k i, i < oracle.length →
      (run_acquire_frames ⟨n, lastRefAfter n k⟩ oracle).getD i none =
        (match oracle.getD i .err with
         | .ok fi => some (FrameAggregator.next_frame fi ((k + i) % n))
         | .err => none) := by
  induction oracle with
  | nil => intro k i hi; simp at hi
  | cons acq rest ih =>
    intro k i hi
    rcases i with _ | j
    · simp [run_acquire_frames, acquire_next_formula n k hn acq]
    · have hj : j < rest.length := by simpa using hi
      simp only [run_acquire_frames, acquire_next_formula n k hn acq]
      have := ih (k + 1) j hj
      have harith : k + 1 + j = k + (j + 1) := by omega
      rw [harith] at this
      simpa using this

/-- `frame_step` performs no fence wait, fence reset, or pool reset. -/
lemma frame_step_no_guard (a : FrameAggregator) (acq : AcquireResult)
    (pr : PresentResult) :
    ((frame_step a acq pr).2.all fun e => !e.isSlotReuseGuard) = true := by
  by_cases hz : a.slots = 0 <;> cases acq <;> cases pr <;>
    simp [frame_step, FrameAggregator.acquire_next,
      FrameAggregator.acquire_next_indices,
      FrameAggregator.next_acq_pre_pair_index, FrameAggregator.next_frame,
      Frame.begin_render, DevEvent.isSlotReuseGuard, hz]

/-- No run of the frame loop ever performs a fence wait, fence reset, or
command-pool reset. -/
lemma run_frames_no_guard (steps : List (AcquireResult × PresentResult)) :
    ∀ a, ((run_frames a steps).2.all fun e => !e.isSlotReuseGuard) = true := by
  induction steps with
  | nil => intro a; simp [run_frames]
  | cons s rest ih =>
    intro a
    obtain ⟨acq, pr⟩ := s
    simp only [run_frames]
    rw [List.all_append]
    have h1 := frame_step_no_guard a acq pr
    have h2 := ih (frame_step a acq pr).1
    simp at h1 h2 ⊢
    exact ⟨h1, h2⟩

/-- C1: the claim states that a slot's fence is waited on (and cleared)
before that slot's command pool and fence are reused.  The code violates
this: the frame path (`acquire_next` / `begin_render`) performs no
`wait_for_fence`, `reset_fence`, or command-pool reset whatsoever, so on a
1-slot aggregator two consecutive acquire+render ticks acquire a command
buffer from slot 0's pool twice and submit signalling slot 0's fence twice
with no fence wait in between. -/
theorem frame_slot_fence_never_waited :
    (∀ (a : FrameAggregator) (steps : List (AcquireResult × PresentResult)),
      ((run_frames a steps).2.all fun e => !e.isSlotReuseGuard) = true) ∧
    ((run_frames ⟨1, 0⟩ [(.ok 0, .ok), (.ok 0, .ok)]).2.count
        (DevEvent.submit 0 0 0) = 2 ∧
     (run_frames ⟨1, 0⟩ [(.ok 0, .ok), (.ok 0, .ok)]).2.count
        (DevEvent.acquireCommandBuffer 0) = 2 ∧
     (run_frames ⟨1, 0⟩ [(.ok 0, .ok), (.ok 0, .ok)]).2.count
        (DevEvent.waitForFence 0) = 0 ∧
     (run_frames ⟨1, 0⟩ [(.ok 0, .ok), (.ok 0, .ok)]).2.count
        (DevEvent.resetCommandPool 0) = 0) :=
  ⟨fun a steps => run_frames_no_guard steps a, by decide⟩

/-- C2: on an `n`-slot aggregator (`n ≥ 1`) the `i`-th acquisition attempt
picks semaphore-pair index `i % n` — round-robin, advancing one per attempt,
the same for every backend oracle and hence independent of the swapchain
image indices returned — and on success the resulting `Frame` binds the
framebuffer, command pool and fence of the acquired image index `fi` and
the semaphores of the rotation index `i % n`. -/
theorem semaphore_round_robin_decoupled (n : Nat) (hn : 1 ≤ n)
    (oracle : List AcquireResult) (i : Nat) (hi : i < oracle.length) :
    (run_acquire_frames ⟨n, 0⟩ oracle).getD i none =
      (match oracle.getD i .err with
       | .ok fi => some ⟨fi, fi, fi, fi, i % n, i % n⟩
       | .err => none) := by
  have h0 : (⟨n, 0⟩ : FrameAggregator) = ⟨n, lastRefAfter n 0⟩ := by
    simp [lastRefAfter]
  rw [h0]
  have h := run_acquire_frames_formula n hn oracle 0 i hi
  simpa [FrameAggregator.next_frame] using h

/-- Witness for C2 at `n = 2`, oracle `[ok 5, err, ok 1]`, attempt `i = 2`:
the third attempt uses semaphore pair `2 % 2 = 0` and the frame binds image
index 1's framebuffer/pool/fence with semaphore pair 0. -/
theorem semaphore_round_robin_decoupled_witness :
    (1 ≤ 2 ∧
      2 < ([AcquireResult.ok 5, AcquireResult.err, AcquireResult.ok 1]).length) ∧
    (run_acquire_frames ⟨2, 0⟩
        [AcquireResult.ok 5, AcquireResult.err, AcquireResult.ok 1]).getD 2 none =
      some ⟨1, 1, 1, 1, 0, 0⟩ :=
  ⟨⟨by decide, by decide⟩, by
    have h := semaphore_round_robin_decoupled 2 (by decide)
      [AcquireResult.ok 5, AcquireResult.err, AcquireResult.ok 1] 2 (by decide)
    simpa using h⟩

/-- C3: on a non-empty aggregator, `acquire_next` returns `none` exactly when
image acquisition fails, and `begin_render` returns `false` exactly when
presentation fails (and `true` exactly when it succeeds); both are total
functions into `Option` / `Bool` — no outcome is a panic or termination. -/
theorem transient_failures_never_terminate (a : FrameAggregator)
    (acq : AcquireResult) (f : Frame) (pr : PresentResult)
    (hn : 1 ≤ a.slots) :
    ((a.acquire_next acq).1 = none ↔ acq = .err) ∧
    ((f.begin_render pr).1 = false ↔ pr = .err) ∧
    ((f.begin_render pr).1 = true ↔ pr = .ok) := by
  have hz : a.slots ≠ 0 := by omega
  refine ⟨?_, ?_, ?_⟩ <;> cases acq <;> cases pr <;>
    simp [FrameAggregator.acquire_next, FrameAggregator.acquire_next_indices,
      Frame.begin_render, hz]

/-- Witness for C3 at a 2-slot aggregator with a failed acquisition and a
failed presentation. -/
theorem transient_failures_never_terminate_witness :
    1 ≤ (⟨2, 0⟩ : FrameAggregator).slots ∧
    ((((⟨2, 0⟩ : FrameAggregator).acquire_next .err).1 = none ↔
        AcquireResult.err = .err) ∧
     (((⟨0, 0, 0, 0, 0, 0⟩ : Frame).begin_render .err).1 = false ↔
        PresentResult.err = .err) ∧
     (((⟨0, 0, 0, 0, 0, 0⟩ : Frame).begin_render .err).1 = true ↔
        PresentResult.err = .ok)) :=
  ⟨by decide,
   transient_failures_never_terminate ⟨2, 0⟩ .err ⟨0, 0, 0, 0, 0, 0⟩ .err
     (by decide)⟩

/-- C10: with zero slots `acquire_next` returns `none` performing no device
call at all (in particular no `acquire_image`), and with `n ≥ 1` slots the
rotation index is always strictly below `n`, so the semaphore indexing during
acquisition (witnessed by the index carried by the `acquireImage` call) is
always in bounds. -/
theorem acquisition_indexing_total (a : FrameAggregator) (acq : AcquireResult) :
    (a.slots = 0 → a.acquire_next acq = (none, a, [])) ∧
    (1 ≤ a.slots →
      a.next_acq_pre_pair_index.1 < a.slots ∧
      ∀ si, DevEvent.acquireImage si ∈ (a.acquire_next acq).2.2 →
        si < a.slots) := by
  constructor
  · intro hz
    cases acq <;>
      simp [FrameAggregator.acquire_next, FrameAggregator.acquire_next_indices, hz]
  · intro hn
    have hz : a.slots ≠ 0 := by omega
    constructor
    · unfold FrameAggregator.next_acq_pre_pair_index
      by_cases h : a.slots ≤ a.last_ref <;> simp [h] <;> omega
    · intro si hsi
      cases acq <;>
        simp [FrameAggregator.acquire_next, FrameAggregator.acquire_next_indices,
          FrameAggregator.next_acq_pre_pair_index, hz] at hsi <;>
        (rw [hsi]; split <;> omega)

/-- Witness for C10: a 0-slot aggregator yields no frame and no device call; a
2-slot aggregator with cursor already past the end picks index `0 < 2`. -/
theorem acquisition_indexing_total_witness :
    ((⟨0, 0⟩ : FrameAggregator).acquire_next .err = (none, ⟨0, 0⟩, [])) ∧
    ((⟨2, 5⟩ : FrameAggregator).next_acq_pre_pair_index.1 < 2) :=
  ⟨(acquisition_indexing_total ⟨0, 0⟩ .err).1 rfl,
   ((acquisition_indexing_total ⟨2, 5⟩ .err).2 (by decide)).1⟩

/-! ### Device: color-format negotiation and memory-type resolution
(src/core/mod.rs) -/

/-- `gfx::format::ChannelType`, reduced to the distinction the code tests. -/
inductive ChannelType where
  | Srgb
  | Unorm
deriving DecidableEq, Repr

/-- A few `gfx::format::Format` values, with their base-format channel type. -/
inductive Format where
  | Rgba8Srgb
  | Rgba8Unorm
  | Bgra8Srgb
  | Bgra8Unorm
deriving DecidableEq, Repr

/-- `format.base_format().1`. -/
def Format.channelType : Format → ChannelType
  | .Rgba8Srgb => .Srgb
  | .Bgra8Srgb => .Srgb
  | .Rgba8Unorm => .Unorm
  | .Bgra8Unorm => .Unorm

/-- The color-format choice in `Device::create`: when the surface reports a
format list, take the first sRGB entry and `.unwrap()` it (modelled: `none`
is the panic of `unwrap` on an sRGB-free list); when it reports no list,
default to `Rgba8Srgb`. -/
def negotiate_color_format (formats : Option (List Format)) : Option Format :=
  match formats with
  | some choices => choices.find? (fun format => format.channelType == ChannelType.Srgb)
  | none => some Format.Rgba8Srgb

/-- `gfx::memory::MemoryType`, keeping only the property bitflags. -/
structure MemoryType where
  properties : Nat
deriving DecidableEq, Repr

/-- `gfx::memory::Requirements`. -/
structure Requirements where
  size : Nat
  type_mask : Nat
deriving DecidableEq, Repr

/-- bitflags `Properties::contains`: every requested bit is present. -/
def propertiesContain (ty props : Nat) : Bool := ty &&& props == props

/-- The predicate of `upload_type_for`'s `find`: bit `id` of the requirement
mask is set and the memory type's properties contain the requested flags. -/
def memTypeMatches (mask props id : Nat) (ty : MemoryType) : Bool :=
  (mask &&& (1 <<< id) != 0) && propertiesContain ty.properties props

/-- `memory_types.iter().enumerate().find(..)`: scan from index `start`,
returning the first (lowest) index whose memory type matches. -/
def find_upload_type (mask props : Nat) :
    List MemoryType → Nat → Option Nat
  | [], _ => none
  | ty :: rest, id =>
    if memTypeMatches mask props id ty then some id
    else find_upload_type mask props rest (id + 1)

/-- `Device::upload_type_for`: the lowest-indexed matching adapter memory
type, paired with the buffer's memory requirements; `none` models the fatal
`.expect("Could not find appropriate vertex buffer memory type.")` panic. -/
def upload_type_for (memory_types : List MemoryType) (req : Requirements)
    (props : Nat) : Option (Nat × Requirements) :=
  (find_upload_type req.type_mask props memory_types 0).map (fun id => (id, req))

lemma find_upload_type_spec (mask props : Nat) :
    ∀ (types : List MemoryType) (start : Nat),
      (∀ id, find_upload_type mask props types start = some id →
        ∃ k, k < types.length ∧ id = start + k ∧
          memTypeMatches mask props (start + k) (types.getD k ⟨0⟩) = true ∧
          ∀ m < k, memTypeMatches mask props (start + m) (types.getD m ⟨0⟩) = false) ∧
      (find_upload_type mask props types start = none ↔
        ∀ k < types.length,
          memTypeMatches mask props (start + k) (types.getD k ⟨0⟩) = false) := by
  intro types
  induction types with
  | nil => intro start; simp [find_upload_type]
  | cons ty rest ih =>
    intro start
    by_cases h : memTypeMatches mask props start ty = true
    · constructor
      · intro id hid
        simp [find_upload_type, h] at hid
        exact ⟨0, by simp, by omega, by simpa using h, by omega⟩
      · constructor
        · intro hnone
          simp [find_upload_type, h] at hnone
        · intro hall
          have := hall 0 (by simp)
          simp at this
          rw [this] at h
          simp at h
    · have hf : memTypeMatches mask props start ty = false := by
        simpa using h
      have ihs := ih (start + 1)
      constructor
      · intro id hid
        simp only [find_upload_type, hf, Bool.false_eq_true, if_false] at hid
        obtain ⟨k, hk, hid', hmatch, hmin⟩ := ihs.1 id hid
        refine ⟨k + 1, by simpa using Nat.succ_lt_succ hk, by omega, ?_, ?_⟩
        · have : start + (k + 1) = start + 1 + k := by omega
          rw [this]
          simpa using hmatch
        · intro m hm
          rcases m with _ | m'
          · simpa using hf
          · have : start + (m' + 1) = start + 1 + m' := by omega
            rw [this]
            simpa using hmin m' (by omega)
      · constructor
        · intro hnone k hk
          simp only [find_upload_type, hf, Bool.false_eq_true, if_false] at hnone
          rcases k with _ | k'
          · simpa using hf
          · have : start + (k' + 1) = start + 1 + k' := by omega
            rw [this]
            simpa using ihs.2.mp hnone k' (by simpa using Nat.lt_of_succ_lt_succ hk)
        · intro hall
          simp only [find_upload_type, hf, Bool.false_eq_true, if_false]
          refine ihs.2.mpr ?_
          intro k hk
          have : start + 1 + k = start + (k + 1) := by omega
          rw [this]
          simpa using hall (k + 1) (by simpa using Nat.succ_lt_succ hk)

/-- C5: `upload_type_for` returns the lowest-indexed adapter memory type
whose bit is set in the requirement mask and whose properties contain the
requested flags, paired with the buffer's memory requirements; it returns
`none` (the fatal, terminating `.expect`) exactly when no memory type
satisfies both. -/
theorem memory_type_resolution (memory_types : List MemoryType)
    (req : Requirements) (props : Nat) :
    (∀ id r, upload_type_for memory_types req props = some (id, r) →
      r = req ∧ id < memory_types.length ∧
      memTypeMatches req.type_mask props id (memory_types.getD id ⟨0⟩) = true ∧
      ∀ j < id,
        memTypeMatches req.type_mask props j (memory_types.getD j ⟨0⟩) = false) ∧
    (upload_type_for memory_types req props = none ↔
      ∀ j < memory_types.length,
        memTypeMatches req.type_mask props j (memory_types.getD j ⟨0⟩) = false) := by
  have hspec := find_upload_type_spec req.type_mask props memory_types 0
  constructor
  · intro id r hid
    cases hfind : find_upload_type req.type_mask props memory_types 0 with
    | none =>
      simp [upload_type_for, hfind] at hid
    | some id' =>
      have hpair : (id', req) = (id, r) := by
        simpa [upload_type_for, hfind] using hid
      have h1 : id' = id := congrArg Prod.fst hpair
      have h2 : req = r := congrArg Prod.snd hpair
      subst h1
      subst h2
      obtain ⟨k, hk, hkid, hmatch, hmin⟩ := hspec.1 id' hfind
      have hke : id' = k := by omega
      subst hke
      refine ⟨rfl, hk, by simpa using hmatch, ?_⟩
      intro j hj
      simpa using hmin j hj
  · have hmapnone : upload_type_for memory_types req props = none ↔
        find_upload_type req.type_mask props memory_types 0 = none := by
      cases hfind : find_upload_type req.type_mask props memory_types 0 <;>
        simp [upload_type_for, hfind]
    rw [hmapnone]
    constructor
    · intro hnone j hj
      simpa using hspec.2.mp hnone j hj
    · intro hall
      refine hspec.2.mpr ?_
      intro k hk
      simpa using hall k hk

/-- Witness for C5: with memory types `[{props 0}, {props 3}]`, requirement
mask `0b10` and requested flags `1`, the resolver returns index 1 (the
lowest match) together with the requirements. -/
theorem memory_type_resolution_witness :
    upload_type_for [⟨0⟩, ⟨3⟩] ⟨64, 2⟩ 1 = some (1, ⟨64, 2⟩) ∧
    ((⟨64, 2⟩ : Requirements) = ⟨64, 2⟩ ∧
      1 < ([⟨0⟩, ⟨3⟩] : List MemoryType).length ∧
      memTypeMatches (Requirements.type_mask ⟨64, 2⟩) 1 1
        (([⟨0⟩, ⟨3⟩] : List MemoryType).getD 1 ⟨0⟩) = true ∧
      ∀ j < 1,
        memTypeMatches (Requirements.type_mask ⟨64, 2⟩) 1 j
          (([⟨0⟩, ⟨3⟩] : List MemoryType).getD j ⟨0⟩) = false) :=
  ⟨by decide, (memory_type_resolution [⟨0⟩, ⟨3⟩] ⟨64, 2⟩ 1).1 1 ⟨64, 2⟩ (by decide)⟩

/-- C4 counterexample: when the surface reports a format list that contains
no sRGB entry, `Device::create` panics on `.unwrap()` (modelled `none`)
instead of falling back to the fixed default `Rgba8Srgb` — the fallback is
taken only when no list is reported at all. -/
theorem color_format_no_srgb_panics :
    negotiate_color_format (some [Format.Rgba8Unorm]) = none ∧
    negotiate_color_format (some [Format.Rgba8Unorm]) ≠ some Format.Rgba8Srgb := by
  decide

/-- C4 amended: with no reported format list the choice defaults to
`Rgba8Srgb`; with a reported list containing an sRGB format, an sRGB format
is chosen; with a reported list containing no sRGB format, device creation
panics (`none`). -/
theorem color_format_negotiation (l : List Format) :
    negotiate_color_format none = some Format.Rgba8Srgb ∧
    ((∃ f ∈ l, f.channelType = ChannelType.Srgb) →
      ∃ f, negotiate_color_format (some l) = some f ∧
        f.channelType = ChannelType.Srgb) ∧
    ((∀ f ∈ l, f.channelType ≠ ChannelType.Srgb) →
      negotiate_color_format (some l) = none) := by
  refine ⟨rfl, ?_, ?_⟩
  · rintro ⟨f, hf, hsrgb⟩
    have hsome : (l.find? (fun fm => fm.channelType == ChannelType.Srgb)).isSome :=
      List.find?_isSome.mpr ⟨f, hf, by simp [hsrgb]⟩
    obtain ⟨g, hg⟩ := Option.isSome_iff_exists.mp hsome
    refine ⟨g, hg, ?_⟩
    simpa using List.find?_some hg
  · intro h
    simp only [negotiate_color_format, List.find?_eq_none]
    intro f hf
    simpa using h f hf

/-- Witness for C4's amended theorem at the list `[Rgba8Unorm, Bgra8Srgb]`. -/
theorem color_format_negotiation_witness :
    (∃ f ∈ [Format.Rgba8Unorm, Format.Bgra8Srgb],
      f.channelType = ChannelType.Srgb) ∧
    (∃ f, negotiate_color_format (some [Format.Rgba8Unorm, Format.Bgra8Srgb]) =
        some f ∧ f.channelType = ChannelType.Srgb) :=
  ⟨⟨Format.Bgra8Srgb, by decide, by decide⟩,
   (color_format_negotiation [Format.Rgba8Unorm, Format.Bgra8Srgb]).2.1
     ⟨Format.Bgra8Srgb, by decide, by decide⟩⟩

/-! ### Buffer allocation and fill (src/buffer/mod.rs) -/

/-- `Buffer`: the raw buffer/memory handle pair (one Nat id), the mapped
content of the backing memory (one cell per element slot), the element
`count`, and the byte size fixed when the memory was allocated. -/
structure Buffer where
  handle : Nat
  mem : Nat → Nat
  count : Nat
  buf_len : Nat
  alloc_size : Nat

/-- `Buffer::alloc_empty::<T>(count, usage, properties)`: creates a buffer of
`count * stride` bytes and allocates `req.size` bytes of backing memory
(`req_size`, reported by the device, is at least the requested length). The
contents start unwritten (modelled zero). -/
def alloc_empty (count stride req_size handle : Nat) : Buffer :=
  { handle := handle, mem := fun _ => 0, count := count,
    buf_len := count * stride, alloc_size := req_size }

/-- `Buffer::fill_buffer(data)`: acquire a mapping writer over bytes
`0..data.len()*stride` (which fails — a panic on `.unwrap()`, modelled
`none` — if the range exceeds the allocated memory), copy `data` into it,
release it, and set `count` to `data.len()`. The buffer handle and the
allocation are untouched. -/
def fill_buffer (b : Buffer) (data : List Nat) (stride : Nat) : Option Buffer :=
  if data.length * stride ≤ b.alloc_size then
    some { b with
      mem := fun i => if i < data.length then data.getD i 0 else b.mem i,
      count := data.length }
  else none

/-- C7: after a successful `fill_buffer(data)` the buffer's `count` equals
`data.len()`, the mapped region holds exactly the elements of `data` (a
host-mapped read-back returns them), and the buffer handle and the allocated
size fixed by `alloc_empty` are unchanged — the allocation never grows. -/
theorem buffer_fill_postcondition (b b' : Buffer) (data : List Nat)
    (stride : Nat) (h : fill_buffer b data stride = some b') :
    b'.count = data.length ∧
    (∀ i < data.length, b'.mem i = data.getD i 0) ∧
    b'.handle = b.handle ∧ b'.buf_len = b.buf_len ∧
    b'.alloc_size = b.alloc_size := by
  by_cases hle : data.length * stride ≤ b.alloc_size
  · simp only [fill_buffer, hle, if_true, Option.some.injEq] at h
    subst h
    refine ⟨rfl, ?_, rfl, rfl, rfl⟩
    intro i hi
    simp [hi]
  · simp [fill_buffer, hle] at h

/-- Witness for C7: a 4-byte buffer filled with `[7, 8]` (stride 1). -/
theorem buffer_fill_postcondition_witness :
    ((fill_buffer (alloc_empty 4 1 4 0) [7, 8] 1).getD (alloc_empty 4 1 4 0)).count = 2 ∧
    ((fill_buffer (alloc_empty 4 1 4 0) [7, 8] 1).getD (alloc_empty 4 1 4 0)).mem 0 = 7 ∧
    ((fill_buffer (alloc_empty 4 1 4 0) [7, 8] 1).getD (alloc_empty 4 1 4 0)).mem 1 = 8 ∧
    ((fill_buffer (alloc_empty 4 1 4 0) [7, 8] 1).getD (alloc_empty 4 1 4 0)).alloc_size = 4 := by
  have h := buffer_fill_postcondition (alloc_empty 4 1 4 0)
    ((fill_buffer (alloc_empty 4 1 4 0) [7, 8] 1).getD (alloc_empty 4 1 4 0))
    [7, 8] 1 rfl
  refine ⟨by simpa using h.1, ?_, ?_, by simpa [alloc_empty] using h.2.2.2.2⟩
  · simpa using h.2.1 0 (by decide)
  · simpa using h.2.1 1 (by decide)

/-! ### Surface destruction and rebuild (src/render/mod.rs) -/

/-- The old GPU objects a `Surface` holds: `n_framebuffers` framebuffers and
`n_images` image views (plus the swapchain). -/
structure SurfaceObjects where
  n_framebuffers : Nat
  n_images : Nat
deriving DecidableEq, Repr

/-- `Surface::destroy`: wait for the device to idle and reset the dispatch
command pool, then destroy every framebuffer, every image view, and the
swapchain. -/
def Surface.destroy_events (s : SurfaceObjects) : List DevEvent :=
  [DevEvent.waitIdle, DevEvent.resetCommandPool 0] ++
  List.replicate s.n_framebuffers DevEvent.destroyFramebuffer ++
  List.replicate s.n_images DevEvent.destroyImageView ++
  [DevEvent.destroySwapchain]

/-- The second half of `Surface::rebuild`: re-query surface compatibility,
compute the new viewport/extent from the fresh capabilities, recreate the
swapchain, the depth view, and one image view and framebuffer per new
swapchain image (`n'` of them). -/
def Surface.recreate_events (n' : Nat) : List DevEvent :=
  [DevEvent.queryCompatibility, DevEvent.computeViewport,
   DevEvent.createSwapchain, DevEvent.createDepthView] ++
  List.replicate n' DevEvent.createImageView ++
  List.replicate n' DevEvent.createFramebuffer

/-- `Surface::rebuild`: `self.destroy(..)` first, then the re-query /
recreation sequence. -/
def Surface.rebuild_events (s : SurfaceObjects) (n' : Nat) : List DevEvent :=
  Surface.destroy_events s ++ Surface.recreate_events n'

/-- Does this call destroy one of the old swapchain objects? -/
def DevEvent.isDestruction : DevEvent → Bool
  | .destroyFramebuffer => true
  | .destroyImageView => true
  | .destroySwapchain => true
  | _ => false

/-- Does this call belong to the re-query / recreation phase? -/
def DevEvent.isRecreation : DevEvent → Bool
  | .queryCompatibility => true
  | .computeViewport => true
  | .createSwapchain => true
  | .createDepthView => true
  | .createImageView => true
  | .createFramebuffer => true
  | _ => false

lemma destroy_events_not_recreation (s : SurfaceObjects) :
    ∀ e ∈ Surface.destroy_events s, e.isRecreation = false := by
  intro e he
  cases e <;>
    first
      | rfl
      | simp [Surface.destroy_events, List.mem_append, List.mem_replicate,
          List.mem_cons] at he

lemma recreate_events_not_destruction (n' : Nat) :
    ∀ e ∈ Surface.recreate_events n', e.isDestruction = false := by
  intro e he
  cases e <;>
    first
      | rfl
      | simp [Surface.recreate_events, List.mem_append, List.mem_replicate,
          List.mem_cons] at he

/-- C8: in the device-call trace of every `Surface::rebuild`, the very first
call is the idle-wait (so it precedes every destruction and is never
skipped), and every destruction of an old object happens strictly before
every call of the re-query / recreate phase (capability query, swapchain
recreation, viewport recomputation, view/framebuffer creation). -/
theorem idle_wait_precedes_swapchain_destruction (s : SurfaceObjects)
    (n' : Nat) :
    (Surface.rebuild_events s n').head? = some DevEvent.waitIdle ∧
    ∀ (i j : Nat) (ev ev' : DevEvent),
      (Surface.rebuild_events s n')[i]? = some ev →
      (Surface.rebuild_events s n')[j]? = some ev' →
      ev.isDestruction = true → ev'.isRecreation = true → i < j := by
  constructor
  · rfl
  · intro i j ev ev' hi hj hdes hrec
    have hlenA : 1 ≤ (Surface.destroy_events s).length := by
      simp [Surface.destroy_events]
    have hiA : i < (Surface.destroy_events s).length := by
      by_contra hge
      push_neg at hge
      rw [Surface.rebuild_events, List.getElem?_append_right hge] at hi
      have hmem : ev ∈ Surface.recreate_events n' := List.getElem?_mem hi
      have := recreate_events_not_destruction n' ev hmem
      rw [this] at hdes
      exact Bool.false_ne_true hdes
    have hjB : (Surface.destroy_events s).length ≤ j := by
      by_contra hlt
      push_neg at hlt
      rw [Surface.rebuild_events, List.getElem?_append_left hlt] at hj
      have hmem : ev' ∈ Surface.destroy_events s := List.getElem?_mem hj
      have := destroy_events_not_recreation s ev' hmem
      rw [this] at hrec
      exact Bool.false_ne_true hrec
    omega

/-- Witness for C8 on a surface with 2 framebuffers and 2 image views being
rebuilt to 2 new images: the swapchain destruction (index 6) precedes the
capability re-query (index 7). -/
theorem idle_wait_precedes_swapchain_destruction_witness :
    ((Surface.rebuild_events ⟨2, 2⟩ 2)[6]? = some DevEvent.destroySwapchain ∧
     (Surface.rebuild_events ⟨2, 2⟩ 2)[7]? = some DevEvent.queryCompatibility ∧
     DevEvent.destroySwapchain.isDestruction = true ∧
     DevEvent.queryCompatibility.isRecreation = true) ∧
    (6 : Nat) < 7 :=
  ⟨⟨by decide, by decide, by decide, by decide⟩,
   (idle_wait_precedes_swapchain_destruction ⟨2, 2⟩ 2).2 6 7
     DevEvent.destroySwapchain DevEvent.queryCompatibility
     (by decide) (by decide) (by decide) (by decide)⟩

/-! ### Surface validity and one-shot rebuilt flags
(src/app/mod.rs, src/spatial/pass.rs) -/

/-- The `Surface` flags referenced by `App::exec_frame` and
`SpatialPass::next`. Modelled from the spec: the flag-bearing `Surface`
(`is_valid` / `did_rebuild` fields and `invalidate`) is referenced by
`src/app/mod.rs` and `src/spatial/pass.rs` but the `Surface` in
`src/render/mod.rs` does not carry these fields ("validity flag, one-shot
just-rebuilt flag"). -/
structure SurfaceFlags where
  is_valid : Bool
  did_rebuild : Bool
deriving DecidableEq, Repr

/-- `Surface::invalidate`. Modelled from the spec: "`Valid→Invalid` on resize
event or presentation returning out-of-date/lost". -/
def SurfaceFlags.invalidate (s : SurfaceFlags) : SurfaceFlags :=
  { s with is_valid := false }

/-- The flag effect of `Surface::rebuild`. Modelled from the spec:
"`Invalid→Valid(+JustRebuilt)` via `rebuild()`". -/
def SurfaceFlags.rebuild (_ : SurfaceFlags) : SurfaceFlags :=
  { is_valid := true, did_rebuild := true }

/-- The value `SpatialPass::next` (src/spatial/pass.rs) reads from
`did_rebuild` during a frame's render — the one consumer depending on
framebuffer identity, reacting by recreating its frame aggregator. -/
def SurfaceFlags.spatial_pass_read (s : SurfaceFlags) : Bool := s.did_rebuild

/-- The flag-relevant skeleton of `App::exec_frame` (src/app/mod.rs): the
render step marks the surface invalid when rendering/presentation reports
failure (`render_ok = false`); then, at the end of the frame, the surface is
rebuilt if invalid, otherwise a pending `did_rebuild` is cleared. Returns
the new flags and whether this frame performed a rebuild. -/
def exec_frame (s : SurfaceFlags) (render_ok : Bool) : SurfaceFlags × Bool :=
  let s1 := if render_ok then s else s.invalidate
  if !s1.is_valid then (s1.rebuild, true)
  else if s1.did_rebuild then ({ s1 with did_rebuild := false }, false)
  else (s1, false)

/-- C9: when a frame performs a rebuild, the surface ends that frame valid
with `did_rebuild` set, so the next frame's `SpatialPass` read observes
`true`; if that next frame does not itself rebuild it clears the flag, and
every subsequent non-rebuilding frame keeps it clear, so every later read
observes `false` until the next rebuild. -/
theorem one_shot_rebuilt_flag (s : SurfaceFlags) (ok ok' ok'' : Bool)
    (hreb : (exec_frame s ok).2 = true) :
    (exec_frame s ok).1.is_valid = true ∧
    (exec_frame s ok).1.spatial_pass_read = true ∧
    ((exec_frame (exec_frame s ok).1 ok').2 = false →
      (exec_frame (exec_frame s ok).1 ok').1.did_rebuild = false) ∧
    (∀ t : SurfaceFlags, t.did_rebuild = false →
      (t.spatial_pass_read = false ∧
       ((exec_frame t ok'').2 = false →
         (exec_frame t ok'').1.did_rebuild = false))) := by
  obtain ⟨v, d⟩ := s
  refine ⟨?_, ?_, ?_, ?_⟩
  · cases v <;> cases d <;> cases ok <;>
      simp_all [exec_frame, SurfaceFlags.invalidate, SurfaceFlags.rebuild]
  · cases v <;> cases d <;> cases ok <;>
      simp_all [exec_frame, SurfaceFlags.invalidate, SurfaceFlags.rebuild,
        SurfaceFlags.spatial_pass_read]
  · intro hnr
    cases v <;> cases d <;> cases ok <;> cases ok' <;>
      simp_all [exec_frame, SurfaceFlags.invalidate, SurfaceFlags.rebuild]
  · intro t hd
    obtain ⟨tv, td⟩ := t
    simp only [SurfaceFlags.spatial_pass_read] at *
    subst hd
    constructor
    · rfl
    · intro hnr
      cases tv <;> cases ok'' <;>
        simp_all [exec_frame, SurfaceFlags.invalidate, SurfaceFlags.rebuild]

/-- Witness for C9: an invalid surface triggers a rebuild at the frame's
end; the resulting flags are valid with a pending, observable `did_rebuild`,
and the following successful frame clears it. -/
theorem one_shot_rebuilt_flag_witness :
    (exec_frame ⟨false, false⟩ true).2 = true ∧
    (exec_frame ⟨false, false⟩ true).1.is_valid = true ∧
    (exec_frame ⟨false, false⟩ true).1.spatial_pass_read = true ∧
    ((exec_frame (exec_frame ⟨false, false⟩ true).1 true).2 = false →
      (exec_frame (exec_frame ⟨false, false⟩ true).1 true).1.did_rebuild = false) :=
  ⟨by decide,
   (one_shot_rebuilt_flag ⟨false, false⟩ true true true (by decide)).1,
   (one_shot_rebuilt_flag ⟨false, false⟩ true true true (by decide)).2.1,
   (one_shot_rebuilt_flag ⟨false, false⟩ true true true (by decide)).2.2.1⟩

/-! ### Texture upload row pitch and staging-row copy (src/buffer/mod.rs) -/

/-- The u32 modulus of the Rust arithmetic in `upload_texture`. -/
def U32 : Nat := 2 ^ 32

/-- The row pitch computed by `TextureBuffer::upload_texture` in u32
arithmetic: `(width * image_stride + row_alignment_mask) & !row_alignment_mask`
with `image_stride = 4` and `row_alignment_mask = alignment - 1`, where
`alignment` is the device's `min_buffer_copy_pitch_alignment`. -/
def row_pitch (width alignment : Nat) : Nat :=
  let mask := alignment - 1
  ((width * 4) % U32 + mask) % U32 &&& (U32 - 1 - mask)

/-- `data[dest_base .. dest_base + row.len()].copy_from_slice(row)` on a
byte-addressed staging buffer. -/
def copyFromSlice (dst : Nat → Nat) (base : Nat) (row : List Nat) :
    Nat → Nat :=
  fun p => if base ≤ p ∧ p < base + row.length then row.getD (p - base) 0 else dst p

/-- Source row `y` of the packed pixel buffer:
`texture.data[y * width * 4 .. (y + 1) * width * 4]`. -/
def textureRow (data : List Nat) (width y : Nat) : List Nat :=
  (data.drop (y * (width * 4))).take (width * 4)

/-- The staging-buffer write loop `for y in 0..height`, writing source row
`y` at byte offset `y * rowPitch` (rows written in increasing order). -/
def writeRows (data : List Nat) (width rowPitch : Nat) :
    Nat → (Nat → Nat) → (Nat → Nat)
  | 0, buf => buf
  | y + 1, buf =>
    copyFromSlice (writeRows data width rowPitch y buf) (y * rowPitch)
      (textureRow data width y)

/-- Clearing the low `k` bits by masking with `2 ^ n - 2 ^ k` rounds down to
a multiple of `2 ^ k`. -/
lemma land_two_pow_complement (y k n : Nat) (hy : y < 2 ^ n) (hk : k ≤ n) :
    y &&& (2 ^ n - 2 ^ k) = 2 ^ k * (y / 2 ^ k) := by
  have hM : 2 ^ n - 2 ^ k = (2 ^ (n - k) - 1) <<< k := by
    rw [Nat.shiftLeft_eq]
    have h1 : 2 ^ (n - k) * 2 ^ k = 2 ^ n := by
      rw [← pow_add]
      congr 1
      omega
    rw [Nat.sub_mul, one_mul, h1]
  have hR : 2 ^ k * (y / 2 ^ k) = (y >>> k) <<< k := by
    rw [Nat.shiftRight_eq_div_pow, Nat.shiftLeft_eq, Nat.mul_comm]
  rw [hM, hR]
  apply Nat.eq_of_testBit_eq
  intro i
  rw [Nat.testBit_and, Nat.testBit_shiftLeft, Nat.testBit_shiftLeft,
    Nat.testBit_shiftRight, Nat.testBit_two_pow_sub_one]
  by_cases hik : k ≤ i
  · have hsub : k + (i - k) = i := by omega
    by_cases hin : i < n
    · have hlt : i - k < n - k := by omega
      simp [hik, hlt, hsub]
    · have hyi : y.testBit i = false :=
        Nat.testBit_lt_two_pow
          (lt_of_lt_of_le hy (Nat.pow_le_pow_right (by omega) (by omega)))
      have hge : ¬ i - k < n - k := by omega
      simp [hik, hge, hsub, hyi]
  · simp [hik]

/-- Under the hypotheses that always hold of the real inputs (the device's
pitch alignment is a power of two and `width * 4 + alignment` does not
overflow u32), the computed row pitch equals `alignment` times the rounded-up
quotient. -/
lemma row_pitch_eq (width k : Nat) (hk : k ≤ 32)
    (hno : width * 4 + 2 ^ k ≤ U32) :
    row_pitch width (2 ^ k) = 2 ^ k * ((width * 4 + 2 ^ k - 1) / 2 ^ k) := by
  have hpos : 1 ≤ 2 ^ k := Nat.one_le_two_pow
  have hUpos : 2 ^ k ≤ 2 ^ 32 := Nat.pow_le_pow_right (by omega) hk
  have hU : U32 = 2 ^ 32 := rfl
  rw [hU] at hno
  have h1 : width * 4 < 2 ^ 32 := by omega
  have h2 : width * 4 + (2 ^ k - 1) < 2 ^ 32 := by omega
  unfold row_pitch
  rw [hU]
  simp only [Nat.mod_eq_of_lt h1, Nat.mod_eq_of_lt h2]
  have hc : 2 ^ 32 - 1 - (2 ^ k - 1) = 2 ^ 32 - 2 ^ k := by omega
  rw [hc, land_two_pow_complement _ k 32 h2 hk]
  congr 2
  omega

/-- `a * ((w + a - 1) / a)` is the least multiple of `a` that is `≥ w`. -/
lemma div_mul_least (w a : Nat) (ha : 0 < a) :
    a ∣ a * ((w + a - 1) / a) ∧
    w ≤ a * ((w + a - 1) / a) ∧
    ∀ m, a ∣ m → w ≤ m → a * ((w + a - 1) / a) ≤ m := by
  have hdm := Nat.div_add_mod (w + a - 1) a
  have hr : (w + a - 1) % a < a := Nat.mod_lt _ ha
  refine ⟨dvd_mul_right _ _, by omega, ?_⟩
  rintro m ⟨c, rfl⟩ hm
  have h1 : w + a - 1 ≤ a * c + (a - 1) := by omega
  have h2 : (w + a - 1) / a ≤ (a * c + (a - 1)) / a := Nat.div_le_div_right h1
  have h3 : (a * c + (a - 1)) / a = c := by
    rw [Nat.mul_add_div ha, Nat.div_eq_of_lt (by omega)]
    omega
  rw [h3] at h2
  exact Nat.mul_le_mul_left a h2

lemma getD_take_drop (data : List Nat) (a n i : Nat) (hi : i < n) :
    ((data.drop a).take n).getD i 0 = data.getD (a + i) 0 := by
  rw [List.getD_eq_getElem?_getD, List.getD_eq_getElem?_getD,
    List.getElem?_take_of_lt hi, List.getElem?_drop]

/-- Reading the staging buffer back row-by-row with the row pitch reproduces
the packed source rows: position `y * rp + i` holds source byte
`y * (width * 4) + i`. -/
lemma writeRows_readback (data : List Nat) (width rp : Nat)
    (hwr : width * 4 ≤ rp) :
    ∀ (h : Nat) (buf : Nat → Nat) (y i : Nat), y < h → i < width * 4 →
      (y + 1) * (width * 4) ≤ data.length →
      writeRows data width rp h buf (y * rp + i) =
        data.getD (y * (width * 4) + i) 0 := by
  intro h
  induction h with
  | zero => intro buf y i hy; exact absurd hy (Nat.not_lt_zero y)
  | succ h' ih =>
    intro buf y i hy hi hlen
    have hrowlen : ∀ z : Nat, (z + 1) * (width * 4) ≤ data.length →
        (textureRow data width z).length = width * 4 := by
      intro z hz
      rw [add_mul, one_mul] at hz
      simp only [textureRow, List.length_take, List.length_drop]
      omega
    by_cases hyh : y = h'
    · subst hyh
      have hrl := hrowlen y hlen
      have hcond : y * rp ≤ y * rp + i ∧
          y * rp + i < y * rp + (textureRow data width y).length := by
        rw [hrl]
        omega
      simp only [writeRows, copyFromSlice, hcond, and_self, if_true]
      have hsub : y * rp + i - y * rp = i := by omega
      rw [hsub, textureRow, getD_take_drop data (y * (width * 4)) (width * 4) i hi]
    · have hy' : y < h' := by omega
      have hcond : ¬ (h' * rp ≤ y * rp + i ∧
          y * rp + i < h' * rp + (textureRow data width h').length) := by
        rintro ⟨hge, _⟩
        have hlt : y * rp + i < (y + 1) * rp := by
          rw [add_mul, one_mul]
          omega
        have hmul : (y + 1) * rp ≤ h' * rp :=
          Nat.mul_le_mul_right rp (by omega)
        omega
      simp only [writeRows, copyFromSlice, hcond, if_false]
      exact ih buf y i hy' hi hlen

/-- C6: for a power-of-two device pitch alignment (as the backend guarantees)
with `width * 4 + alignment` within u32, the row pitch computed by
`upload_texture` is the smallest multiple of the alignment that is
`≥ width * 4`, and the staging write loop places source row `y` at byte
offset `y * row_pitch`, so reading the staging buffer back row-by-row with
that pitch reproduces the packed pixel buffer exactly. -/
theorem row_pitch_correctness (width height alignment k : Nat)
    (data : List Nat) (buf : Nat → Nat) (y i : Nat)
    (ha : alignment = 2 ^ k) (hk : k ≤ 32)
    (hno : width * 4 + alignment ≤ U32)
    (hlen : data.length = height * (width * 4))
    (hy : y < height) (hi : i < width * 4) :
    (alignment ∣ row_pitch width alignment ∧
     width * 4 ≤ row_pitch width alignment ∧
     (∀ m, alignment ∣ m → width * 4 ≤ m → row_pitch width alignment ≤ m)) ∧
    writeRows data width (row_pitch width alignment) height buf
        (y * row_pitch width alignment + i) =
      data.getD (y * (width * 4) + i) 0 := by
  subst ha
  have hpeq := row_pitch_eq width k hk hno
  have hleast := div_mul_least (width * 4) (2 ^ k) (Nat.pos_pow_of_pos k (by omega))
  rw [hpeq]
  refine ⟨hleast, ?_⟩
  refine writeRows_readback data width _ ?_ height buf y i hy hi ?_
  · exact hleast.2.1
  · rw [hlen]
    exact Nat.mul_le_mul_right (width * 4) (by omega)

/-- Witness for C6 at `width = 3`, `height = 2`, `alignment = 8 = 2 ^ 3`,
pixel data `0..23`: the pitch is 16, a multiple of 8 at least 12, and
staging position `1 * 16 + 5` reads back source byte `1 * 12 + 5 = 17`. -/
theorem row_pitch_correctness_witness :
    ((2 ^ 3 : Nat) ∣ row_pitch 3 (2 ^ 3) ∧ 3 * 4 ≤ row_pitch 3 (2 ^ 3)) ∧
    writeRows (List.range 24) 3 (row_pitch 3 (2 ^ 3)) 2 (fun _ => 0)
        (1 * row_pitch 3 (2 ^ 3) + 5) =
      (List.range 24).getD (1 * (3 * 4) + 5) 0 := by
  have h := row_pitch_correctness 3 2 (2 ^ 3) 3 (List.range 24) (fun _ => 0) 1 5
    rfl (by norm_num) (by decide) (by simp) (by norm_num) (by norm_num)
  exact ⟨⟨h.1.1, h.1.2.1⟩, h.2⟩

end Imperium
